import Mathlib

set_option maxRecDepth 100000

/-!
Verification of the DOM-components core of the repository:
* `src/packages/babel-preset-expo/src/use-dom-directive-plugin.ts`
  (the compile-time "use dom" directive transformer), and
* the dev-server middleware / virtual-entry generator module
  (`createDomComponentsMiddleware`, `getDomComponentVirtualProxy`,
  `getDomComponentHtml`).

The TypeScript is shallowly embedded: strings are Lean `String`s
(all inputs considered are ASCII, so UTF-8 bytes coincide with code
points), 32-bit machine integers are `Nat` reduced `% 2^32`, the
file system is an association list from paths to contents, and the
asynchronous effects of the generator (write, conditional settling
delay) are returned explicitly in a result structure.
-/

/-! ## String helpers (models of the JS/Node string primitives used) -/

/-- Model of JS `String.prototype.startsWith`: prefix test on the
character list. -/
def strStartsWith (s p : String) : Bool :=
  p.data.isPrefixOf s.data

/-- Boolean prefix test on character lists. -/
def isPrefixB : List Char → List Char → Bool
  | [], _ => true
  | _ :: _, [] => false
  | a :: as, b :: bs => a == b && isPrefixB as bs

/-- Boolean substring search: does `pat` occur in the text? -/
def containsB (pat : List Char) : List Char → Bool
  | [] => isPrefixB pat []
  | c :: cs => isPrefixB pat (c :: cs) || containsB pat cs

/-- Substring containment of `pat` in `s`. -/
def containsSub (s pat : String) : Bool :=
  containsB pat.data s.data

/-- Split a character list at every occurrence of `sep`. -/
def splitChars (sep : Char) : List Char → List (List Char)
  | [] => [[]]
  | c :: cs =>
    let rest := splitChars sep cs
    if c = sep then [] :: rest
    else
      match rest with
      | [] => [[c]]
      | r :: rs => (c :: r) :: rs

/-- Split a string on a separator character. -/
def strSplit (sep : Char) (s : String) : List String :=
  (splitChars sep s.data).map String.mk

/-- Join strings with a separator. -/
def joinWith (sep : String) : List String → String
  | [] => ""
  | [x] => x
  | x :: xs => x ++ sep ++ joinWith sep xs

/-- Split a character list at the first occurrence of `sep`:
returns the part before and, when `sep` occurs, the part after. -/
def splitFirstChar (sep : Char) : List Char → List Char × Option (List Char)
  | [] => ([], none)
  | c :: cs =>
    if c = sep then ([], some cs)
    else
      let r := splitFirstChar sep cs
      (c :: r.1, r.2)

/-! ## SHA-1 (model of Node `crypto.createHash('sha1')...digest('hex')`)

Executable SHA-1 over byte lists, words as `Nat % 2^32`. -/

/-- 32-bit left rotation. -/
def rotl32 (n x : Nat) : Nat :=
  ((x <<< n) ||| (x >>> (32 - n))) % 4294967296

/-- Big-endian 8-byte encoding of a natural number. -/
def be64 (n : Nat) : List Nat :=
  [(n >>> 56) % 256, (n >>> 48) % 256, (n >>> 40) % 256, (n >>> 32) % 256,
   (n >>> 24) % 256, (n >>> 16) % 256, (n >>> 8) % 256, n % 256]

/-- SHA-1 message padding: append `0x80`, zero bytes to 56 mod 64,
then the bit length as a big-endian 64-bit integer. -/
def sha1Pad (msg : List Nat) : List Nat :=
  let len := msg.length
  let padZeros := (119 - len % 64) % 64
  msg ++ [128] ++ List.replicate padZeros 0 ++ be64 (len * 8)

/-- Group a byte list into big-endian 32-bit words. -/
def bytesToWords : List Nat → List Nat
  | b0 :: b1 :: b2 :: b3 :: rest =>
    (b0 <<< 24 ||| b1 <<< 16 ||| b2 <<< 8 ||| b3) :: bytesToWords rest
  | _ => []

/-- Split a list into chunks of 16 elements (a trailing short group is
dropped; padding guarantees a multiple of 16 words). -/
def chunks16 : List Nat → List (List Nat)
  | a0 :: a1 :: a2 :: a3 :: a4 :: a5 :: a6 :: a7 ::
    a8 :: a9 :: a10 :: a11 :: a12 :: a13 :: a14 :: a15 :: rest =>
    [a0, a1, a2, a3, a4, a5, a6, a7, a8, a9, a10, a11, a12, a13, a14, a15] ::
      chunks16 rest
  | _ => []

/-- Indexed access into the word list (0 past the end). -/
def nthWord (l : List Nat) (i : Nat) : Nat := l.getD i 0

/-- One step of the SHA-1 message-schedule extension. -/
def extendStep (ws : List Nat) : List Nat :=
  let n := ws.length
  ws ++ [rotl32 1 (nthWord ws (n - 3) ^^^ nthWord ws (n - 8) ^^^
                   nthWord ws (n - 14) ^^^ nthWord ws (n - 16))]

/-- Extend 16 schedule words to 80. -/
def extendWords (ws : List Nat) : List Nat :=
  extendStep^[64] ws

/-- SHA-1 round function and constant for round `i`. -/
def sha1FK (i b c d : Nat) : Nat × Nat :=
  if i < 20 then ((b &&& c) ||| ((b ^^^ 4294967295) &&& d), 1518500249)
  else if i < 40 then (b ^^^ c ^^^ d, 1859775393)
  else if i < 60 then ((b &&& c) ||| (b &&& d) ||| (c &&& d), 2400959708)
  else (b ^^^ c ^^^ d, 3395469782)

/-- SHA-1 compression of one 16-word chunk into the running state. -/
def sha1Compress (h : Nat × Nat × Nat × Nat × Nat) (chunk : List Nat) :
    Nat × Nat × Nat × Nat × Nat :=
  let w := extendWords chunk
  let (h0, h1, h2, h3, h4) := h
  let fin := (List.range 80).foldl
    (fun st i =>
      let (a, b, c, d, e) := st
      let fk := sha1FK i b c d
      let temp := (rotl32 5 a + fk.1 + e + fk.2 + nthWord w i) % 4294967296
      (temp, a, rotl32 30 b, c, d))
    (h0, h1, h2, h3, h4)
  ((h0 + fin.1) % 4294967296, (h1 + fin.2.1) % 4294967296,
   (h2 + fin.2.2.1) % 4294967296, (h3 + fin.2.2.2.1) % 4294967296,
   (h4 + fin.2.2.2.2) % 4294967296)

/-- Lower-case hex digit. -/
def hexDigit (n : Nat) : Char :=
  if n < 10 then Char.ofNat (48 + n) else Char.ofNat (87 + n)

/-- 8-hex-digit big-endian rendering of a 32-bit word. -/
def wordHex (w : Nat) : String :=
  String.mk ((List.range 8).map (fun i => hexDigit ((w >>> ((7 - i) * 4)) % 16)))

/-- SHA-1 digest of a byte list, hex encoded. -/
def sha1HexBytes (msg : List Nat) : String :=
  let chunks := chunks16 (bytesToWords (sha1Pad msg))
  let (h0, h1, h2, h3, h4) :=
    chunks.foldl sha1Compress
      (1732584193, 4023233417, 2562383102, 271733878, 3285377520)
  wordHex h0 ++ wordHex h1 ++ wordHex h2 ++ wordHex h3 ++ wordHex h4

/-- Model of `crypto.createHash('sha1').update(s).digest('hex')` for
ASCII strings (UTF-8 bytes = code points). -/
def sha1Hex (s : String) : String :=
  sha1HexBytes (s.data.map Char.toNat)

example : sha1Hex "abc" = "a9993e364706816aba3e25717850c26c9cd0d89d" := by decide
example : sha1Hex "" = "da39a3ee5e6b4b0d3255bfef95601890afd80709" := by decide

/-! ## Path and URL helpers (models of the Node `path`/`url` functions used) -/

/-- Model of Node `url.pathToFileURL(p).href` for absolute POSIX paths
containing no characters that require percent-encoding. -/
def pathToFileURL (p : String) : String := "file://" ++ p

/-- Modelled from the spec: `fileURLToFilePath` is imported from
`createServerComponentsMiddleware`, which is not part of the sources
here; per the spec it resolves a `file://`-scheme URL to a file-system
path, modelled as stripping the 7-character `file://` prefix. -/
def fileURLToFilePath (u : String) : String := String.mk (u.data.drop 7)

/-- Model of Node `path.basename` for POSIX paths without a trailing
separator: the part after the last `/`. -/
def basename (p : String) : String :=
  String.mk (p.data.foldl (fun acc c => if c = '/' then [] else acc ++ [c]) [])

/-- Model of Node `path.join(a, b, c)` for segments with no extra
leading/trailing separators. -/
def pathJoin3 (a b c : String) : String := a ++ "/" ++ b ++ "/" ++ c

/-- Path components of a POSIX path. -/
def splitPath (p : String) : List String :=
  (strSplit '/' p).filter (fun s => s ≠ "")

/-- Model of Node `path.dirname` for absolute POSIX paths. -/
def dirname (p : String) : String :=
  "/" ++ joinWith "/" (splitPath p).dropLast

/-- Drop the common leading components of two component lists. -/
def dropCommonPrefix : List String → List String → List String × List String
  | a :: as, b :: bs =>
    if a = b then dropCommonPrefix as bs else (a :: as, b :: bs)
  | as, bs => (as, bs)

/-- Model of Node `path.relative` for absolute POSIX paths: strip the
common prefix, go up with `..` for what is left of the source, then
down into the destination. -/
def pathRelative (src dst : String) : String :=
  let r := dropCommonPrefix (splitPath src) (splitPath dst)
  joinWith "/" (r.1.map (fun _ => "..") ++ r.2)

/-- Model of `JSON.stringify` on strings containing no characters that
need escaping: wrap in double quotes. -/
def jsonStringify (s : String) : String := "\x22" ++ s ++ "\x22"

/-- JS truthiness of an optional string (`undefined` and `""` are
falsy). -/
def jsTruthy : Option String → Bool
  | none => false
  | some s => !(s == "")

/-! ## `getDomComponentHtml` (HTML shell builder) -/

/-- Literal HTML up to the optional title element. -/
def htmlHead : String :=
  "\n<!DOCTYPE html>\n<html>\n    <head>\n        <meta charset=\"utf-8\" />\n        <meta httpEquiv=\"X-UA-Compatible\" content=\"IE=edge\" />\n        <meta name=\"viewport\" content=\"width=device-width, initial-scale=1, user-scalable=no\">\n        "

/-- Literal HTML between the optional title element and the optional
script tag: the style block, the noscript notice and the root
container. -/
def htmlMid : String :=
  "\n        <style id=\"expo-dom-component-style\">\n        /* These styles make the body full-height */\n        html,\n        body \x7b\n          -webkit-overflow-scrolling: touch; /* Enables smooth momentum scrolling */\n        \x7d\n        /* These styles make the root element full-height */\n        #root \x7b\n          display: flex;\n          flex: 1;\n        \x7d\n        </style>\n    </head>\n    <body>\n    <noscript>DOM Components require <code>javaScriptEnabled</code></noscript>\n        <!-- Root element for the DOM component. -->\n        <div id=\"root\"></div>\n        "

/-- Literal HTML after the optional script tag. -/
def htmlTail : String := "\n    </body>\n</html>"

/-- Embedding of `getDomComponentHtml(src?, { title }?)`: the template
literal with its two conditional interpolations. -/
def getDomComponentHtml (src title : Option String) : String :=
  htmlHead ++
    (if jsTruthy title then "<title>" ++ title.getD "" ++ "</title>" else "") ++
    htmlMid ++
    (if jsTruthy src then "<script crossorigin src=\"" ++ src.getD "" ++ "\"></script>"
     else "") ++
    htmlTail

/-! ## `getDomComponentVirtualProxy` (virtual entry module) -/

structure VirtualFile where
  filePath : String
  contents : String
deriving DecidableEq

/-- The generated entry-module template, as a function of the
`JSON.stringify`-ed relative file path. -/
def domProxyContents (stringifiedFilePath : String) : String :=
  "\n// Entry file for the web-side of a DOM Component.\nimport \x7b registerDOMComponent \x7d from \x27expo/dom/internal\x27;\n\nregisterDOMComponent(() => import(" ++ stringifiedFilePath ++
    "), " ++ stringifiedFilePath ++ ");\n"

/-- The import specifier used by the generated module: `filePath`
relative to the generated entry's directory, forced to begin with a
relative-path marker (`./` prefixed when missing). -/
def domRelativeImport (generatedEntry filePath : String) : String :=
  let rel0 := pathRelative (dirname generatedEntry) filePath
  if strStartsWith rel0 "." then rel0 else "./" ++ rel0

/-- Embedding of `getDomComponentVirtualProxy(generatedEntry, filePath)`. -/
def getDomComponentVirtualProxy (generatedEntry filePath : String) : VirtualFile :=
  { filePath := generatedEntry,
    contents := domProxyContents (jsonStringify (domRelativeImport generatedEntry filePath)) }

/-! ## File-system model and `getDomComponentVirtualEntryModuleAsync` -/

/-- The dev-server file system: an association list from paths to file
contents (later entries shadow earlier ones). -/
abbrev FsState := List (String × String)

/-- Read a path (model of `fileExistsAsync` / file contents). -/
def fsRead : FsState → String → Option String
  | [], _ => none
  | (q, c) :: rest, p => if q = p then some c else fsRead rest p

/-- Overwriting write (model of `fs.promises.writeFile`). -/
def fsWrite (fs : FsState) (p c : String) : FsState := (p, c) :: fs

structure EntryResult where
  fs : FsState
  sleptMs : Option Nat
  generatedEntry : String
deriving DecidableEq

/-- Embedding of `getDomComponentVirtualEntryModuleAsync(file)`: hash
the resolved file path, write the virtual proxy module under
`<projectRoot>/.expo/@dom/<hash>.js` (the `mkdirSync` is implicit in
the file-system model), and apply the 1000 ms settling delay exactly
when the file did not exist before the write. -/
def getDomComponentVirtualEntryModuleAsync (projectRoot : String) (fs : FsState)
    (file : String) : EntryResult :=
  let filePath := if strStartsWith file "file://" then fileURLToFilePath file else file
  let hash := sha1Hex filePath
  let generatedEntry := pathJoin3 projectRoot ".expo/@dom" (hash ++ ".js")
  let entryFile := getDomComponentVirtualProxy generatedEntry filePath
  let alreadyExists := (fsRead fs entryFile.filePath).isSome
  let fs2 := fsWrite fs entryFile.filePath entryFile.contents
  { fs := fs2,
    sleptMs := if alreadyExists then none else some 1000,
    generatedEntry := generatedEntry }

/-! ## URL parsing and `createDomComponentsMiddleware` -/

structure ParsedUrl where
  pathname : String
  params : List (String × String)

/-- One query segment `k=v` (or bare `k`, value `""`). -/
def parseQueryPair (seg : List Char) : String × String :=
  let r := splitFirstChar '=' seg
  (String.mk r.1, String.mk (r.2.getD []))

/-- Model of `coerceUrl` (WHATWG `URL` with a fallback base) for
origin-form request targets as produced by the Node HTTP server:
the pathname is everything before the first `?`, the query is split
on `&` into `k=v` pairs; percent-decoding is not modelled (the
parameters considered contain no escapes). -/
def coerceUrl (u : String) : ParsedUrl :=
  let r := splitFirstChar '?' u.data
  { pathname := String.mk r.1,
    params := match r.2 with
      | none => []
      | some q => (splitChars '&' q).map parseQueryPair }

/-- Model of `URLSearchParams.get`: the first pair with the key. -/
def getParam : List (String × String) → String → Option String
  | [], _ => none
  | (k, v) :: rest, key => if k = key then some v else getParam rest key

inductive MwAction where
  | next
  | respond (statusCode : Nat) (statusMessage : Option String)
      (contentType : Option String) (body : Option String)
deriving DecidableEq

structure MwOutcome where
  action : MwAction
  fs : FsState
  sleptMs : Option Nat
deriving DecidableEq

/-- Embedding of the request handler returned by
`createDomComponentsMiddleware`. `bundleUrlFor` stands for the
external bundler URL construction (`createBundleUrlPath` composed
with the dev-server base URL), a collaborator outside this core; the
one-time `warnUnstable` log is not observable in the outcome and is
not modelled. -/
def createDomComponentsMiddleware (projectRoot : String)
    (bundleUrlFor : String → String) (fs : FsState) (reqUrl : Option String) :
    MwOutcome :=
  match reqUrl with
  | none => ⟨.next, fs, none⟩
  | some u =>
    if u = "" then ⟨.next, fs, none⟩
    else
      let url := coerceUrl u
      if !(strStartsWith url.pathname "/_expo/@dom") then ⟨.next, fs, none⟩
      else
        match getParam url.params "file" with
        | none => ⟨.respond 400 (some "Invalid file path: null") none none, fs, none⟩
        | some file =>
          if !(strStartsWith file "file://") then
            ⟨.respond 400 (some ("Invalid file path: " ++ file)) none none, fs, none⟩
          else
            let r := getDomComponentVirtualEntryModuleAsync projectRoot fs file
            let metroUrl := bundleUrlFor r.generatedEntry
            ⟨.respond 200 none (some "text/html")
                (some (getDomComponentHtml (some metroUrl) (some (basename file)))),
              r.fs, r.sleptMs⟩

/-! ## `expoUseDomDirectivePlugin` (compile-time directive transformer)

The Babel plugin is embedded as a function from the observable compile
state of one module (caller platform and production flag, filename,
leading directives, export declarations found by the traversal, and
the `state.file.metadata` object — `none` models a non-object value)
to its observable outcome: the module left unchanged, a fatal compile
error with its message, or the module rewritten into the proxy
component with a `source` descriptor and the updated metadata. -/

inductive ExportKind where
  | namedExport
  | defaultExport
deriving DecidableEq

/-- The `source.uri` of the generated proxy component: either a plain
string computed at compile time (production), or a dev-server relative
URL resolved at app runtime against `getDevServer().url`. -/
inductive SourceUri where
  | direct (uri : String)
  | fromDevServer (relative : String)
deriving DecidableEq

inductive PluginResult where
  | unchanged
  | compileError (msg : String)
  | rewritten (source : SourceUri) (metadata : List (String × String))
deriving DecidableEq

structure BabelModuleState where
  platform : String
  isProduction : Bool
  filename : Option String
  directives : List String
  exports : List ExportKind
  metadata : Option (List (String × String))

/-- Model of the JS property assignment
`state.file.metadata.expoDomComponentReference = outputKey` on the
association-list view of the metadata object. -/
def setMetaField (md : List (String × String)) (k v : String) :
    List (String × String) := (k, v) :: md

/-- Reading a field of the metadata object (first binding wins, as for
JS property access on the association-list view). -/
def objField : List (String × String) → String → Option String
  | [], _ => none
  | (q, v) :: rest, k => if q = k then some v else objField rest k

/-- Embedding of the `Program` visitor of `expoUseDomDirectivePlugin`. -/
def expoUseDomDirectivePlugin (st : BabelModuleState) : PluginResult :=
  if st.platform = "web" then .unchanged
  else
    let hasUseDomDirective := st.directives.contains "use dom"
    match st.filename with
    | none => .compileError "[Babel] Expected a filename to be set in the state"
    | some filePath =>
      if !hasUseDomDirective then .unchanged
      else if st.exports.contains .namedExport then
        .compileError
          "Modules with the \"use dom\" directive only support a single default export."
      else if !(st.exports.contains .defaultExport) then
        .compileError
          "The \"use dom\" directive requires a default export to be present in the file."
      else
        let outputKey := pathToFileURL filePath
        let sourceResult : String ⊕ SourceUri :=
          if st.isProduction then
            let hash := sha1Hex outputKey
            if st.platform = "ios" then
              .inr (.direct ("www.bundle/" ++ hash ++ ".html"))
            else if st.platform = "android" then
              .inr (.direct ("file:///android_asset" ++ ("www/" ++ hash ++ ".html")))
            else
              .inl ("production \"use dom\" directive is not supported yet for platform: "
                ++ st.platform)
          else
            .inr (.fromDevServer ("/_expo/@dom/" ++ basename filePath ++ "?file=" ++ outputKey))
        match sourceResult with
        | .inl msg => .compileError msg
        | .inr src =>
          match st.metadata with
          | none => .compileError "Expected Babel state.file.metadata to be an object"
          | some md => .rewritten src (setMetaField md "expoDomComponentReference" outputKey)

/-! ## Helper lemmas -/

theorem string_data_append (s t : String) : (s ++ t).data = s.data ++ t.data := rfl

theorem stringEq_of_data : ∀ {s t : String}, s.data = t.data → s = t
  | ⟨_⟩, ⟨_⟩, rfl => rfl

theorem strStartsWith_append (a b : String) : strStartsWith (a ++ b) a = true := by
  show a.data.isPrefixOf (a ++ b).data = true
  rw [string_data_append]
  simp [List.isPrefixOf_iff_prefix]

theorem strStartsWith_dotSlash (x : String) : strStartsWith ("./" ++ x) "." = true := rfl

theorem fileURLToFilePath_fileURL (p : String) :
    fileURLToFilePath ("file://" ++ p) = p := by
  show String.mk (("file://" ++ p).data.drop 7) = p
  rw [string_data_append]
  rfl

theorem pathJoin3_expand (a c : String) :
    pathJoin3 a ".expo/@dom" c = a ++ "/.expo/@dom/" ++ c := by
  apply stringEq_of_data
  simp only [pathJoin3, string_data_append, List.append_assoc]
  rfl

theorem fsRead_fsWrite (fs : FsState) (p c : String) :
    fsRead (fsWrite fs p c) p = some c := by
  simp [fsRead, fsWrite]

theorem domRelativeImport_marker (g f : String) :
    strStartsWith (domRelativeImport g f) "." = true := by
  unfold domRelativeImport
  by_cases h : strStartsWith (pathRelative (dirname g) f) "." = true
  · simp [h]
  · simp [h, strStartsWith_dotSlash]

theorem objField_setMetaField_same (md : List (String × String)) (k v : String) :
    objField (setMetaField md k v) k = some v := by
  simp [objField, setMetaField]

theorem objField_setMetaField_other (md : List (String × String)) (k v k' : String)
    (h : k' ≠ k) : objField (setMetaField md k v) k' = objField md k' := by
  simp [objField, setMetaField, Ne.symm h]

/-! ## Claims about the directive transformer -/

/-- C5 counterexample: on a native platform, a module with NO
`"use dom"` directive is not left alone when Babel supplies no
filename — the plugin throws its filename error, contradicting the
claim that directive-free modules are always untouched without error. -/
theorem use_dom_missing_filename_cex :
    expoUseDomDirectivePlugin ⟨"ios", false, none, [], [], some []⟩
      = .compileError "[Babel] Expected a filename to be set in the state"
  ∧ expoUseDomDirectivePlugin ⟨"ios", false, none, [], [], some []⟩
      ≠ .unchanged := by
  constructor
  · rfl
  · intro h
    rw [show expoUseDomDirectivePlugin ⟨"ios", false, none, [], [], some []⟩
        = .compileError "[Babel] Expected a filename to be set in the state" from rfl] at h
    exact PluginResult.noConfusion h

/-- C5 (amended): the transformer leaves the module unchanged when the
platform is web, and — provided a filename is set in the compile
state — when the `"use dom"` directive is absent; with no filename it
raises a fatal error even for directive-free modules on native
platforms. -/
theorem use_dom_directive_frame (st : BabelModuleState) :
    (st.platform = "web" → expoUseDomDirectivePlugin st = .unchanged)
  ∧ (∀ fp, st.filename = some fp → st.directives.contains "use dom" = false →
      expoUseDomDirectivePlugin st = .unchanged) := by
  constructor
  · intro h
    simp [expoUseDomDirectivePlugin, h]
  · intro fp hf hd
    have hd' : "use dom" ∉ st.directives := by simpa using hd
    by_cases hw : st.platform = "web"
    · simp [expoUseDomDirectivePlugin, hw]
    · simp [expoUseDomDirectivePlugin, hw, hf, hd']

/-- C5 witness: a concrete web-platform module is left unchanged. -/
theorem use_dom_directive_frame_witness :
    expoUseDomDirectivePlugin ⟨"web", true, none, ["use dom"], [.namedExport], none⟩
      = .unchanged :=
  (use_dom_directive_frame ⟨"web", true, none, ["use dom"], [.namedExport], none⟩).1 rfl

/-- C2 counterexample: a `"use dom"` module with exactly one default
export and no named export does NOT succeed on every non-web
platform — in production on platform `macos` the plugin throws the
unsupported-platform error instead of succeeding. -/
theorem use_dom_unsupported_platform_cex :
    expoUseDomDirectivePlugin
        ⟨"macos", true, some "/App.js", ["use dom"], [.defaultExport], some []⟩
      = .compileError
          "production \"use dom\" directive is not supported yet for platform: macos"
  ∧ ∀ src md,
      expoUseDomDirectivePlugin
          ⟨"macos", true, some "/App.js", ["use dom"], [.defaultExport], some []⟩
        ≠ .rewritten src md := by
  constructor
  · rfl
  · intro src md h
    rw [show expoUseDomDirectivePlugin
          ⟨"macos", true, some "/App.js", ["use dom"], [.defaultExport], some []⟩
        = .compileError
            "production \"use dom\" directive is not supported yet for platform: macos"
        from rfl] at h
    exact PluginResult.noConfusion h

/-- C2 (amended): for a `"use dom"` module on a non-web platform with
a known filename, any named export is a fatal error and a missing
default export is a fatal error; with exactly one default export and
no named export, compilation succeeds provided the build-mode/platform
pair is supported (development, or production on ios or android) and
the compile metadata is an object. -/
theorem use_dom_export_validation (st : BabelModuleState)
    (hw : st.platform ≠ "web") (hd : st.directives.contains "use dom" = true) :
    (∀ fp, st.filename = some fp → st.exports.contains .namedExport = true →
       expoUseDomDirectivePlugin st = .compileError
         "Modules with the \"use dom\" directive only support a single default export.")
  ∧ (∀ fp, st.filename = some fp → st.exports.contains .namedExport = false →
       st.exports.contains .defaultExport = false →
       expoUseDomDirectivePlugin st = .compileError
         "The \"use dom\" directive requires a default export to be present in the file.")
  ∧ (∀ fp md, st.filename = some fp → st.metadata = some md →
       st.exports.contains .namedExport = false →
       st.exports.contains .defaultExport = true →
       (st.isProduction = false ∨ st.platform = "ios" ∨ st.platform = "android") →
       ∃ src md2, expoUseDomDirectivePlugin st = .rewritten src md2) := by
  have hd' : "use dom" ∈ st.directives := by simpa using hd
  refine ⟨?_, ?_, ?_⟩
  · intro fp hf hn
    have hn' : ExportKind.namedExport ∈ st.exports := by simpa using hn
    simp [expoUseDomDirectivePlugin, hw, hf, hd', hn']
  · intro fp hf hn he
    have hn' : ExportKind.namedExport ∉ st.exports := by simpa using hn
    have he' : ExportKind.defaultExport ∉ st.exports := by simpa using he
    simp [expoUseDomDirectivePlugin, hw, hf, hd', hn', he']
  · intro fp md hf hm hn he hsup
    have hn' : ExportKind.namedExport ∉ st.exports := by simpa using hn
    have he' : ExportKind.defaultExport ∈ st.exports := by simpa using he
    rcases hsup with hdev | hios | handroid
    · exact ⟨.fromDevServer ("/_expo/@dom/" ++ basename fp ++ "?file=" ++ pathToFileURL fp),
        setMetaField md "expoDomComponentReference" (pathToFileURL fp),
        by simp [expoUseDomDirectivePlugin, hw, hf, hd', hn', he', hm, hdev]⟩
    · by_cases hp : st.isProduction = true
      · exact ⟨.direct ("www.bundle/" ++ sha1Hex (pathToFileURL fp) ++ ".html"),
          setMetaField md "expoDomComponentReference" (pathToFileURL fp),
          by simp [expoUseDomDirectivePlugin, hw, hf, hd', hn', he', hm, hp, hios]⟩
      · have hp' : st.isProduction = false := by simpa using hp
        exact ⟨.fromDevServer ("/_expo/@dom/" ++ basename fp ++ "?file=" ++ pathToFileURL fp),
          setMetaField md "expoDomComponentReference" (pathToFileURL fp),
          by simp [expoUseDomDirectivePlugin, hw, hf, hd', hn', he', hm, hp']⟩
    · by_cases hp : st.isProduction = true
      · by_cases hios : st.platform = "ios"
        · exact ⟨.direct ("www.bundle/" ++ sha1Hex (pathToFileURL fp) ++ ".html"),
            setMetaField md "expoDomComponentReference" (pathToFileURL fp),
            by simp [expoUseDomDirectivePlugin, hw, hf, hd', hn', he', hm, hp, hios]⟩
        · exact ⟨.direct ("file:///android_asset" ++ ("www/" ++ sha1Hex (pathToFileURL fp) ++ ".html")),
            setMetaField md "expoDomComponentReference" (pathToFileURL fp),
            by simp [expoUseDomDirectivePlugin, hw, hf, hd', hn', he', hm, hp, hios, handroid]⟩
      · have hp' : st.isProduction = false := by simpa using hp
        exact ⟨.fromDevServer ("/_expo/@dom/" ++ basename fp ++ "?file=" ++ pathToFileURL fp),
          setMetaField md "expoDomComponentReference" (pathToFileURL fp),
          by simp [expoUseDomDirectivePlugin, hw, hf, hd', hn', he', hm, hp']⟩

/-- C2 witness: a concrete module with a named export fails with the
single-default-export error. -/
theorem use_dom_export_validation_witness :
    expoUseDomDirectivePlugin
        ⟨"ios", false, some "/App.js", ["use dom"], [.namedExport, .defaultExport], some []⟩
      = .compileError
          "Modules with the \"use dom\" directive only support a single default export." :=
  (use_dom_export_validation
      ⟨"ios", false, some "/App.js", ["use dom"], [.namedExport, .defaultExport], some []⟩
      (by decide) (by decide)).1 "/App.js" rfl (by decide)

/-- C3: the proxy `source.uri` is selected by build mode and platform:
production/ios gives `www.bundle/<sha1(outputKey)>.html`,
production/android gives the concatenation
`file:///android_asset` + `www/<sha1(outputKey)>.html`, production on
any other (non-web) platform is a fatal error, and development gives a
dev-server URL with path `/_expo/@dom/<basename>` and query
`file=<outputKey>`. -/
theorem use_dom_source_uri (st : BabelModuleState) (fp : String)
    (md : List (String × String))
    (hw : st.platform ≠ "web") (hf : st.filename = some fp)
    (hd : st.directives.contains "use dom" = true)
    (hn : st.exports.contains .namedExport = false)
    (he : st.exports.contains .defaultExport = true)
    (hm : st.metadata = some md) :
    (st.isProduction = true → st.platform = "ios" →
       expoUseDomDirectivePlugin st = .rewritten
         (.direct ("www.bundle/" ++ sha1Hex (pathToFileURL fp) ++ ".html"))
         (setMetaField md "expoDomComponentReference" (pathToFileURL fp)))
  ∧ (st.isProduction = true → st.platform = "android" →
       expoUseDomDirectivePlugin st = .rewritten
         (.direct ("file:///android_asset" ++ ("www/" ++ sha1Hex (pathToFileURL fp) ++ ".html")))
         (setMetaField md "expoDomComponentReference" (pathToFileURL fp)))
  ∧ (st.isProduction = true → st.platform ≠ "ios" → st.platform ≠ "android" →
       expoUseDomDirectivePlugin st = .compileError
         ("production \"use dom\" directive is not supported yet for platform: "
           ++ st.platform))
  ∧ (st.isProduction = false →
       expoUseDomDirectivePlugin st = .rewritten
         (.fromDevServer ("/_expo/@dom/" ++ basename fp ++ "?file=" ++ pathToFileURL fp))
         (setMetaField md "expoDomComponentReference" (pathToFileURL fp))) := by
  have hd' : "use dom" ∈ st.directives := by simpa using hd
  have hn' : ExportKind.namedExport ∉ st.exports := by simpa using hn
  have he' : ExportKind.defaultExport ∈ st.exports := by simpa using he
  refine ⟨?_, ?_, ?_, ?_⟩
  · intro hp hios
    simp [expoUseDomDirectivePlugin, hw, hf, hd', hn', he', hm, hp, hios]
  · intro hp hand
    have hios : st.platform ≠ "ios" := by rw [hand]; decide
    simp [expoUseDomDirectivePlugin, hw, hf, hd', hn', he', hm, hp, hios, hand]
  · intro hp hios hand
    simp [expoUseDomDirectivePlugin, hw, hf, hd', hn', he', hm, hp, hios, hand]
  · intro hp
    simp [expoUseDomDirectivePlugin, hw, hf, hd', hn', he', hm, hp]

/-- C3 witness: a concrete production/ios module gets the
`www.bundle/<hash>.html` source URI. -/
theorem use_dom_source_uri_witness :
    expoUseDomDirectivePlugin
        ⟨"ios", true, some "/a.js", ["use dom"], [.defaultExport], some []⟩
      = .rewritten (.direct ("www.bundle/" ++ sha1Hex (pathToFileURL "/a.js") ++ ".html"))
          (setMetaField [] "expoDomComponentReference" (pathToFileURL "/a.js")) :=
  (use_dom_source_uri ⟨"ios", true, some "/a.js", ["use dom"], [.defaultExport], some []⟩
      "/a.js" [] (by decide) rfl (by decide) (by decide) (by decide) rfl).1 rfl rfl

/-- C9: whenever the transformer rewrites a module, the updated compile
metadata holds the module's canonical file URL under
`expoDomComponentReference`, and every other field is unchanged — it
is the only field written. -/
theorem use_dom_metadata_contract (st : BabelModuleState) (fp : String)
    (md : List (String × String)) (src : SourceUri) (md2 : List (String × String))
    (hf : st.filename = some fp) (hm : st.metadata = some md)
    (h : expoUseDomDirectivePlugin st = .rewritten src md2) :
    objField md2 "expoDomComponentReference" = some (pathToFileURL fp)
  ∧ ∀ k, k ≠ "expoDomComponentReference" → objField md2 k = objField md k := by
  have hmd2 : md2 = setMetaField md "expoDomComponentReference" (pathToFileURL fp) := by
    by_cases hw : st.platform = "web"
    · simp [expoUseDomDirectivePlugin, hw] at h
    · by_cases hud : "use dom" ∈ st.directives
      · by_cases hn : ExportKind.namedExport ∈ st.exports
        · simp [expoUseDomDirectivePlugin, hw, hf, hud, hn] at h
        · by_cases he : ExportKind.defaultExport ∈ st.exports
          · by_cases hp : st.isProduction = true
            · by_cases hios : st.platform = "ios"
              · simp [expoUseDomDirectivePlugin, hw, hf, hm, hud, hn, he, hp, hios] at h
                exact h.2.symm
              · by_cases hand : st.platform = "android"
                · simp [expoUseDomDirectivePlugin, hw, hf, hm, hud, hn, he, hp,
                    hios, hand] at h
                  exact h.2.symm
                · simp [expoUseDomDirectivePlugin, hw, hf, hm, hud, hn, he, hp,
                    hios, hand] at h
            · have hp' : st.isProduction = false := by simpa using hp
              simp [expoUseDomDirectivePlugin, hw, hf, hm, hud, hn, he, hp'] at h
              exact h.2.symm
          · simp [expoUseDomDirectivePlugin, hw, hf, hud, hn, he] at h
      · simp [expoUseDomDirectivePlugin, hw, hf, hud] at h
  subst hmd2
  exact ⟨objField_setMetaField_same md _ _,
    fun k hk => objField_setMetaField_other md _ _ k hk⟩

/-- C9 witness: a concrete rewrite stores the canonical URL under the
well-known key while the pre-existing field is untouched. -/
theorem use_dom_metadata_contract_witness :
    objField [("expoDomComponentReference", "file:///a.js"), ("x", "y")]
        "expoDomComponentReference" = some (pathToFileURL "/a.js") :=
  (use_dom_metadata_contract
      ⟨"ios", false, some "/a.js", ["use dom"], [.defaultExport], some [("x", "y")]⟩
      "/a.js" [("x", "y")]
      (.fromDevServer ("/_expo/@dom/" ++ basename "/a.js" ++ "?file=" ++ pathToFileURL "/a.js"))
      [("expoDomComponentReference", "file:///a.js"), ("x", "y")]
      rfl rfl (by decide)).1

/-! ## Claims about the HTML shell builder -/

/-- C8: with no arguments the shell contains the root container and
neither a script tag nor a title element; with src `x.js` and title
`T` it contains `<title>T</title>` and a script tag whose src is
`x.js`. -/
theorem dom_html_shell_builder :
    containsSub (getDomComponentHtml none none) "<div id=\"root\"></div>" = true
  ∧ containsSub (getDomComponentHtml none none) "<script" = false
  ∧ containsSub (getDomComponentHtml none none) "<title" = false
  ∧ containsSub (getDomComponentHtml (some "x.js") (some "T")) "<title>T</title>" = true
  ∧ containsSub (getDomComponentHtml (some "x.js") (some "T"))
      "<script crossorigin src=\"x.js\"></script>" = true := by decide

/-! ## More helper lemmas (substring search, option dispatch) -/

theorem isPrefixB_self_append : ∀ (l t : List Char), isPrefixB l (l ++ t) = true
  | [], _ => rfl
  | a :: as, t => by simp [isPrefixB, isPrefixB_self_append as t]

theorem containsB_of_prefix (pat text : List Char) (h : isPrefixB pat text = true) :
    containsB pat text = true := by
  cases text with
  | nil => simpa [containsB] using h
  | cons c cs => simp [containsB, h]

theorem containsB_append_mid : ∀ (pre pat post : List Char),
    containsB pat (pre ++ (pat ++ post)) = true
  | [], pat, post => containsB_of_prefix _ _ (isPrefixB_self_append pat post)
  | c :: pre, pat, post => by
    simp [containsB, containsB_append_mid pre pat post]

theorem ite_isSome_none_iff (o : Option String) :
    (if o.isSome then (none : Option Nat) else some 1000) = some 1000 ↔ o = none := by
  cases o <;> simp

/-! ## Claims across the two components (hashing) -/

/-- C1 counterexample: for the same file `/a.js` the Middleware's
generated entry path embeds `sha1("/a.js")` while the Transformer's
production URI embeds `sha1("file:///a.js")` — the two components
digest different strings, and the embedded hashes differ. -/
theorem dom_hash_cross_component_cex :
    (getDomComponentVirtualEntryModuleAsync "/proj" [] "file:///a.js").generatedEntry
      = "/proj/.expo/@dom/c941acdae5e9f2295fe43c60367b9977da689871.js"
  ∧ expoUseDomDirectivePlugin
        ⟨"ios", true, some "/a.js", ["use dom"], [.defaultExport], some []⟩
      = .rewritten (.direct "www.bundle/c41c0e5962a6b9a9043ea1cb8edad00f96dab3e9.html")
          [("expoDomComponentReference", "file:///a.js")]
  ∧ ("c941acdae5e9f2295fe43c60367b9977da689871" : String)
      ≠ "c41c0e5962a6b9a9043ea1cb8edad00f96dab3e9" := by
  refine ⟨by decide, by decide, by decide⟩

/-- C1 (amended): both components hash deterministically, but from
different strings derived from the same file path `p`: the Middleware
digests the file-system path (`sha1Hex p`) for the virtual entry name,
while the Transformer digests the canonical file URL
(`sha1Hex (pathToFileURL p)`) for the production URI, so identical
canonical URL does not imply an identical embedded hash across the two
components. -/
theorem dom_hash_inputs_across_components (projectRoot p : String) (fs : FsState)
    (md : List (String × String)) :
    (getDomComponentVirtualEntryModuleAsync projectRoot fs (pathToFileURL p)).generatedEntry
      = projectRoot ++ "/.expo/@dom/" ++ (sha1Hex p ++ ".js")
  ∧ expoUseDomDirectivePlugin ⟨"ios", true, some p, ["use dom"], [.defaultExport], some md⟩
      = .rewritten (.direct ("www.bundle/" ++ sha1Hex (pathToFileURL p) ++ ".html"))
          (setMetaField md "expoDomComponentReference" (pathToFileURL p)) := by
  constructor
  · simp [getDomComponentVirtualEntryModuleAsync, pathToFileURL, strStartsWith_append,
      fileURLToFilePath_fileURL, pathJoin3_expand]
  · simp [expoUseDomDirectivePlugin, pathToFileURL]

/-! ## Claims about the middleware and the virtual entry generator -/

/-- C4: requests whose path is outside `/_expo/@dom` fall through to
the next handler untouched; on a matching path a missing or
non-`file://` `file` parameter yields a 400 whose status message
echoes the value; a valid `file://` value yields 200 `text/html`. -/
theorem dom_middleware_routing (projectRoot : String) (bundleUrlFor : String → String)
    (fs : FsState) (u : String) :
    (strStartsWith (coerceUrl u).pathname "/_expo/@dom" = false →
       createDomComponentsMiddleware projectRoot bundleUrlFor fs (some u)
         = ⟨.next, fs, none⟩)
  ∧ (strStartsWith (coerceUrl u).pathname "/_expo/@dom" = true →
       (getParam (coerceUrl u).params "file" = none →
          (createDomComponentsMiddleware projectRoot bundleUrlFor fs (some u)).action
            = .respond 400 (some "Invalid file path: null") none none)
     ∧ (∀ f, getParam (coerceUrl u).params "file" = some f →
          strStartsWith f "file://" = false →
          (createDomComponentsMiddleware projectRoot bundleUrlFor fs (some u)).action
            = .respond 400 (some ("Invalid file path: " ++ f)) none none)
     ∧ (∀ f, getParam (coerceUrl u).params "file" = some f →
          strStartsWith f "file://" = true →
          (createDomComponentsMiddleware projectRoot bundleUrlFor fs (some u)).action
            = .respond 200 none (some "text/html")
                (some (getDomComponentHtml
                  (some (bundleUrlFor
                    (getDomComponentVirtualEntryModuleAsync projectRoot fs f).generatedEntry))
                  (some (basename f)))))) := by
  by_cases hu : u = ""
  · subst hu
    exact ⟨fun _ => rfl, fun hpre => absurd hpre (by decide)⟩
  · constructor
    · intro hpre
      simp [createDomComponentsMiddleware, hu, hpre]
    · intro hpre
      refine ⟨?_, ?_, ?_⟩
      · intro hnone
        simp [createDomComponentsMiddleware, hu, hpre, hnone]
      · intro f hf hscheme
        simp [createDomComponentsMiddleware, hu, hpre, hf, hscheme]
      · intro f hf hscheme
        simp [createDomComponentsMiddleware, hu, hpre, hf, hscheme]

/-- C4 witness: `/_expo/@dom?file=not-a-file-url` gets a 400 echoing
the invalid value. -/
theorem dom_middleware_routing_witness :
    (createDomComponentsMiddleware "/proj" (fun _ => "bundle.js") []
        (some "/_expo/@dom?file=not-a-file-url")).action
      = .respond 400 (some ("Invalid file path: " ++ "not-a-file-url")) none none :=
  ((dom_middleware_routing "/proj" (fun _ => "bundle.js") []
      "/_expo/@dom?file=not-a-file-url").2 (by decide)).2.1
    "not-a-file-url" (by decide) (by decide)

/-- C6: the generator writes the virtual entry at
`<projectRoot>/.expo/@dom/<sha1(path)>.js`, whose contents pass a
lazy-import thunk of the relative path and the literal relative path
string to `registerDOMComponent`, the relative path always carrying a
relative-path marker. -/
theorem dom_virtual_entry_location (projectRoot : String) (fs : FsState) (file : String)
    (h : strStartsWith file "file://" = true) :
    strStartsWith
        (domRelativeImport
          (getDomComponentVirtualEntryModuleAsync projectRoot fs file).generatedEntry
          (fileURLToFilePath file)) "." = true
  ∧ (getDomComponentVirtualEntryModuleAsync projectRoot fs file).generatedEntry
      = projectRoot ++ "/.expo/@dom/" ++ (sha1Hex (fileURLToFilePath file) ++ ".js")
  ∧ fsRead (getDomComponentVirtualEntryModuleAsync projectRoot fs file).fs
      (getDomComponentVirtualEntryModuleAsync projectRoot fs file).generatedEntry
      = some (domProxyContents (jsonStringify
          (domRelativeImport
            (getDomComponentVirtualEntryModuleAsync projectRoot fs file).generatedEntry
            (fileURLToFilePath file)))) := by
  refine ⟨domRelativeImport_marker _ _, ?_, ?_⟩
  · simp [getDomComponentVirtualEntryModuleAsync, h, pathJoin3_expand]
  · simp [getDomComponentVirtualEntryModuleAsync, h, getDomComponentVirtualProxy,
      fsRead_fsWrite]

/-- C6 witness: concrete generation for `file:///proj/src/App.js`. -/
theorem dom_virtual_entry_location_witness :
    strStartsWith
        (domRelativeImport
          (getDomComponentVirtualEntryModuleAsync "/proj" [] "file:///proj/src/App.js").generatedEntry
          (fileURLToFilePath "file:///proj/src/App.js")) "." = true
  ∧ (getDomComponentVirtualEntryModuleAsync "/proj" [] "file:///proj/src/App.js").generatedEntry
      = "/proj" ++ "/.expo/@dom/" ++ (sha1Hex (fileURLToFilePath "file:///proj/src/App.js") ++ ".js")
  ∧ fsRead (getDomComponentVirtualEntryModuleAsync "/proj" [] "file:///proj/src/App.js").fs
      (getDomComponentVirtualEntryModuleAsync "/proj" [] "file:///proj/src/App.js").generatedEntry
      = some (domProxyContents (jsonStringify
          (domRelativeImport
            (getDomComponentVirtualEntryModuleAsync "/proj" [] "file:///proj/src/App.js").generatedEntry
            (fileURLToFilePath "file:///proj/src/App.js")))) :=
  dom_virtual_entry_location "/proj" [] "file:///proj/src/App.js" (by decide)

/-- C7: every call overwrites the generated path with the freshly
rendered proxy contents, and the 1000 ms settling delay is applied
exactly when the generated file did not exist before the write. -/
theorem dom_entry_overwrite_and_settle (projectRoot : String) (fs : FsState)
    (file : String) :
    fsRead (getDomComponentVirtualEntryModuleAsync projectRoot fs file).fs
        (getDomComponentVirtualEntryModuleAsync projectRoot fs file).generatedEntry
      = some (getDomComponentVirtualProxy
          (getDomComponentVirtualEntryModuleAsync projectRoot fs file).generatedEntry
          (if strStartsWith file "file://" then fileURLToFilePath file else file)).contents
  ∧ ((getDomComponentVirtualEntryModuleAsync projectRoot fs file).sleptMs = some 1000
      ↔ fsRead fs (getDomComponentVirtualEntryModuleAsync projectRoot fs file).generatedEntry
          = none) := by
  constructor
  · simp [getDomComponentVirtualEntryModuleAsync, getDomComponentVirtualProxy,
      fsRead_fsWrite]
  · exact ite_isSome_none_iff
      (fsRead fs (getDomComponentVirtualEntryModuleAsync projectRoot fs file).generatedEntry)

/-- C10: the shell builder interpolates the title verbatim — for any
non-empty title `t`, even one containing HTML markup, the output
contains the exact substring `<title>t</title>` — and on the HTTP
path the title handed to the builder is `basename(file)`, derived
from the client-supplied `file` query parameter. -/
theorem dom_html_title_verbatim (src : Option String) (t : String) (ht : t ≠ "")
    (projectRoot : String) (bundleUrlFor : String → String) (fs : FsState) (u f : String)
    (hpre : strStartsWith (coerceUrl u).pathname "/_expo/@dom" = true)
    (hf : getParam (coerceUrl u).params "file" = some f)
    (hscheme : strStartsWith f "file://" = true) :
    containsSub (getDomComponentHtml src (some t)) ("<title>" ++ t ++ "</title>") = true
  ∧ (createDomComponentsMiddleware projectRoot bundleUrlFor fs (some u)).action
      = .respond 200 none (some "text/html")
          (some (getDomComponentHtml
            (some (bundleUrlFor
              (getDomComponentVirtualEntryModuleAsync projectRoot fs f).generatedEntry))
            (some (basename f)))) := by
  constructor
  · have hb : jsTruthy (some t) = true := by simp [jsTruthy, ht]
    unfold containsSub getDomComponentHtml
    rw [hb]
    simp only [if_true, Option.getD_some]
    generalize (if jsTruthy src then "<script crossorigin src=\"" ++ src.getD "" ++ "\"></script>" else "") = sf
    simpa [string_data_append, List.append_assoc] using
      containsB_append_mid htmlHead.data ("<title>" ++ t ++ "</title>").data
        (htmlMid.data ++ (sf.data ++ htmlTail.data))
  · by_cases hu : u = ""
    · subst hu
      exact absurd hpre (by decide)
    · simp [createDomComponentsMiddleware, hu, hpre, hf, hscheme]

/-- C10 witness: a markup-laden title is embedded verbatim, and the
HTTP response's title comes from the client's `file` parameter. -/
theorem dom_html_title_verbatim_witness :
    containsSub (getDomComponentHtml none (some "<b>hi</b>"))
        ("<title>" ++ "<b>hi</b>" ++ "</title>") = true
  ∧ (createDomComponentsMiddleware "/p" (fun _ => "x.js") []
        (some "/_expo/@dom?file=file:///x/App.js")).action
      = .respond 200 none (some "text/html")
          (some (getDomComponentHtml
            (some ((fun _ => "x.js")
              (getDomComponentVirtualEntryModuleAsync "/p" [] "file:///x/App.js").generatedEntry))
            (some (basename "file:///x/App.js")))) :=
  dom_html_title_verbatim none "<b>hi</b>" (by decide) "/p" (fun _ => "x.js") []
    "/_expo/@dom?file=file:///x/App.js" "file:///x/App.js"
    (by decide) (by decide) (by decide)
